import Mathlib

/-
Verification of the HTTP/2 connection driver (src/src/h2.rs) against its
natural-language specification.

The embedding models the serving-phase state machine of Http2::poll, the
per-exchange Entry record with its completion flags, the body-flow routine
Entry::poll_payload, request dispatch in Entry::new, and the IoWrapper
transport adapter.  External collaborators (the h2 protocol engine, the
application task, the payload consumer) are modelled as oracles: their poll
results are inputs to each step function, and their observable effects
(chunks fed to the sink, capacity grants released, stream resets) are
recorded in the state so theorems can speak about them.
-/

/- Result of polling the inbound body receiver (RecvStream::poll): a data
chunk, end-of-body, or a fault carrying an error code.  An empty pending
list models Ok(Async::NotReady). -/
inductive RecvItem where
  | chunk (c : List Nat)
  | eofItem
  | fault (code : Nat)
deriving DecidableEq

/- Result of Task::poll_io (Poll with a readiness Bool on Ready). -/
inductive IoPoll where
  | ready (complete : Bool)
  | notReady
  | err
deriving DecidableEq

/- Result of Task::poll (completion-only poll). -/
inductive TaskPoll where
  | ready
  | notReady
  | err
deriving DecidableEq

/- Which application task an exchange was dispatched to: a registered
handler (identified by its id) or the canned HTTPNotFound reply. -/
inductive Dispatched where
  | handler (hid : Nat)
  | notFound
deriving DecidableEq

/- A registered application handler: a path-prefix string and an identifier
standing for its handle operation. -/
structure Handler where
  pfx : List Char
  hid : Nat
deriving DecidableEq

/- One Exchange Entry (struct Entry in h2.rs).  The task, request, payload
sink, receiver and writer are modelled by their observable state:
fed     - chunks fed to the payload sink, in order (feed_data calls);
sinkErrs - error codes recorded on the sink (set_error calls);
grants  - capacity amounts released to the transport (release_capacity);
pending - events the inbound receiver will deliver, in order;
notified - whether task.disconnected() has been called;
resets  - number of stream.reset calls issued on this entry writer;
eof, error, finished, reof, capacity - the source fields of the same name. -/
structure Entry where
  task : Dispatched
  fed : List (List Nat)
  sinkErrs : List Nat
  grants : List Nat
  pending : List RecvItem
  notified : Bool
  resets : Nat
  eof : Bool
  error : Bool
  finished : Bool
  reof : Bool
  capacity : Nat
deriving DecidableEq

/- Single receiver poll of Entry::poll_payload (h2.rs lines 281-292): the
receiver poll result is the head of the pending list (an empty list is
NotReady); a chunk is fed to the sink, None sets reof, a fault records a
body error on the sink. -/
def Entry.drainStep (e : Entry) : Entry :=
  match e.pending with
  | RecvItem.chunk c :: rest =>
      { e with pending := rest, fed := e.fed ++ [c] }
  | RecvItem.eofItem :: rest =>
      { e with pending := rest, reof := true }
  | RecvItem.fault code :: rest =>
      { e with pending := rest, sinkErrs := e.sinkErrs ++ [code] }
  | [] => e

/- Capacity comparison and grant (h2.rs lines 294-300): when the sink
capacity value differs from the stored one, store it and release exactly
that value to the transport, recording a grant failure as a body error. -/
def Entry.grantStep (e : Entry) (cap : Nat) (gerr : Option Nat) : Entry :=
  if e.capacity ≠ cap then
    let e2 := { e with capacity := cap, grants := e.grants ++ [cap] }
    match gerr with
    | some code => { e2 with sinkErrs := e2.sinkErrs ++ [code] }
    | none => e2
  else e

/- Entry::poll_payload (h2.rs lines 279-302): a no-op once reof is set;
otherwise exactly one receiver poll, then the capacity comparison.  cap is
the value the sink currently reports from capacity(); grantErr is Some code
when release_capacity would fail with that error. -/
def Entry.poll_payload (e : Entry) (cap : Nat) (grantErr : Option Nat) : Entry :=
  if e.reof then e
  else (e.drainStep).grantStep cap grantErr

/- Handler dispatch loop of Entry::new (h2.rs lines 257-264): take the first
registered handler whose path prefix is a prefix of the request path; if the
loop finds none, Task::reply(HTTPNotFound) is substituted (line 266). -/
def dispatch (router : List Handler) (path : List Char) : Dispatched :=
  match router with
  | [] => Dispatched.notFound
  | h :: rest =>
      if h.pfx.isPrefixOf path then Dispatched.handler h.hid
      else dispatch rest path

/- Entry::new (h2.rs lines 228-277): a fresh entry with all completion flags
false, capacity 0, the inbound receiver attached, and the task obtained from
the dispatch loop. -/
def Entry.new (router : List Handler) (path : List Char) (body : List RecvItem) : Entry :=
  { task := dispatch router path, fed := [], sinkErrs := [], grants := [],
    pending := body, notified := false, resets := 0, eof := false,
    error := false, finished := false, reof := false, capacity := 0 }

/- Task-advancement step for one entry (h2.rs lines 84-113): if the entry is
not at eof, the result of task.poll_io is consumed; otherwise, if not yet
finished, the result of task.poll.  The returned Bool is true when the step
cleared the not_ready flag (only the Ok(Ready) arms do; both Err arms leave
it set, exactly as in the source). -/
def taskStep (e : Entry) (iop : IoPoll) (tkp : TaskPoll) : Entry × Bool :=
  if !e.eof then
    match iop with
    | IoPoll.ready complete =>
        (if complete then { e with eof := true, finished := true }
         else { e with eof := true }, true)
    | IoPoll.notReady => (e, false)
    | IoPoll.err =>
        ({ e with eof := true, error := true, resets := e.resets + 1 }, false)
  else if !e.finished then
    match tkp with
    | TaskPoll.ready => ({ e with finished := true }, true)
    | TaskPoll.notReady => (e, false)
    | TaskPoll.err => ({ e with error := true, finished := true }, false)
  else (e, false)

/- Per-entry oracle inputs for one pass: the sink capacity value, whether
the capacity grant fails, and the two task poll results. -/
structure EntryInput where
  cap : Nat
  grantErr : Option Nat
  iop : IoPoll
  tkp : TaskPoll

/- Body of the for-loop over in-flight entries (h2.rs lines 80-113):
poll_payload first, then the task step. -/
def entryPass (e : Entry) (i : EntryInput) : Entry × Bool :=
  taskStep (e.poll_payload i.cap i.grantErr) i.iop i.tkp

/- The for-loop over all in-flight entries, with per-entry inputs indexed by
position.  The Bool is true when some entry made progress. -/
def entriesPhase : List Entry → (Nat → EntryInput) → List Entry × Bool
  | [], _ => ([], false)
  | e :: es, ins =>
      let r := entryPass e (ins 0)
      let rest := entriesPhase es (fun n => ins (n + 1))
      (r.1 :: rest.1, r.2 || rest.2)

/- Completion predicate used by the cleanup loop (h2.rs line 118). -/
def donePred (e : Entry) : Bool := (e.eof && e.finished) || e.error

/- Cleanup of finished tasks (h2.rs lines 116-123): pop the head while it
satisfies (eof && finished) || error, stop at the first head that does not. -/
def cleanup : List Entry → List Entry
  | [] => []
  | e :: rest =>
      if (e.eof && e.finished) || e.error then cleanup rest else e :: rest

/- Effect of entry.task.disconnected() (h2.rs lines 131-133, 159-161). -/
def notifyDisconnect (e : Entry) : Entry := { e with notified := true }

/- Result of polling the protocol engine for the next event (server.poll,
h2.rs line 127): end-of-connection, a new stream, nothing yet, or a fatal
engine error. -/
inductive ServerPoll where
  | closed
  | stream (path : List Char) (body : List RecvItem)
  | notReady
  | engineErr

/- Serving-phase driver state (struct Http2): the handler registry, the
peer-closed flag, the entry collection in arrival order, and whether the
keep-alive timer currently exists.  The state field is implicit: these
definitions model the State::Server branch of Http2::poll. -/
structure Http2State where
  router : List Handler
  disconnected : Bool
  tasks : List Entry
  keepaliveTimer : Bool

/- Oracle inputs for one iteration of the inner loop: per-entry inputs and
the engine poll outcome. -/
structure IterInput where
  eins : Nat → EntryInput
  engine : ServerPoll

/- One iteration of the inner loop of Http2::poll (h2.rs lines 76-165):
poll every entry, prune the completed prefix, then - only if the peer has
not disconnected - poll the engine: on end-of-connection mark disconnected
and notify every remaining task; on a new stream append a new entry and
clear the keep-alive timer; on nothing-yet arm the timer when the entry
collection is empty and no timer exists; on an engine error mark
disconnected, notify tasks and discard the timer.  The Bool is true when
the iteration made progress (not_ready was cleared). -/
def innerIter (st : Http2State) (inp : IterInput) : Http2State × Bool :=
  let r := entriesPhase st.tasks inp.eins
  let ts := cleanup r.1
  if st.disconnected then ({ st with tasks := ts }, r.2)
  else
    match inp.engine with
    | ServerPoll.closed =>
        ({ st with tasks := ts.map notifyDisconnect, disconnected := true }, true)
    | ServerPoll.stream path body =>
        ({ st with
            tasks := ts ++ [Entry.new st.router path body],
            keepaliveTimer := false }, true)
    | ServerPoll.notReady =>
        if ts.isEmpty && !st.keepaliveTimer then
          ({ st with tasks := ts, keepaliveTimer := true }, r.2)
        else ({ st with tasks := ts }, r.2)
    | ServerPoll.engineErr =>
        ({ st with
            tasks := ts.map notifyDisconnect,
            disconnected := true,
            keepaliveTimer := false }, r.2)

/- The inner loop (h2.rs lines 76-174), fuelled by a list of per-iteration
oracle inputs: repeat innerIter while it makes progress; when an iteration
makes no progress, return Ready (done, Bool true) when the entry collection
is empty and the peer is disconnected, else NotReady (pending, Bool false).
Returns none when the fuel runs out while still progressing. -/
def serveLoop : Http2State → List IterInput → Option (Http2State × Bool)
  | _, [] => none
  | st, i :: rest =>
      let r := innerIter st i
      if r.2 then serveLoop r.1 rest
      else some (r.1, r.1.tasks.isEmpty && r.1.disconnected)

/- The serving-state body of Http2::poll (h2.rs lines 64-174): if a
keep-alive timer exists and has fired, return Ready immediately; otherwise
run the inner loop. -/
def servePoll (st : Http2State) (timerFired : Bool) (iters : List IterInput) :
    Option (Http2State × Bool) :=
  if st.keepaliveTimer && timerFired then some (st, true)
  else serveLoop st iters

/- The underlying transport of the IoWrapper, by its observable state: the
bytes it will deliver to reads, plus logs of delegated writes, flushes and
shutdowns.  A read takes up to the requested length from the front. -/
structure InnerIo where
  toRead : List Nat
  written : List (List Nat)
  flushes : Nat
  shutdowns : Nat
deriving DecidableEq

/- struct IoWrapper (h2.rs lines 305-308): an optional unread prefix over
the inner transport. -/
structure IoWrapper where
  unread : Option (List Nat)
  inner : InnerIo
deriving DecidableEq

/- IoWrapper construction as performed by Http2::new (h2.rs line 57): the
already-consumed buffer is always installed as Some. -/
def mkIoWrapper (buf : List Nat) (inner : InnerIo) : IoWrapper :=
  { unread := some buf, inner := inner }

/- IoWrapper::read (h2.rs lines 310-324): if an unread prefix is present it
is taken; size = min(buffer length, prefix length) bytes are returned from
its front; a strictly larger prefix has its remainder reinstalled,
otherwise unread stays None; only when no prefix is present does the read
delegate to the inner transport. -/
def IoWrapper.read (w : IoWrapper) (bufLen : Nat) : List Nat × IoWrapper :=
  match w.unread with
  | some bytes =>
      let size := min bufLen bytes.length
      if size < bytes.length then
        (bytes.take size, { w with unread := some (bytes.drop size) })
      else
        (bytes.take size, { w with unread := none })
  | none =>
      (w.inner.toRead.take bufLen,
       { w with inner := { w.inner with toRead := w.inner.toRead.drop bufLen } })

/- IoWrapper::write (h2.rs lines 327-329): always delegates. -/
def IoWrapper.write (w : IoWrapper) (buf : List Nat) : IoWrapper :=
  { w with inner := { w.inner with written := w.inner.written ++ [buf] } }

/- IoWrapper::flush (h2.rs lines 330-332): always delegates. -/
def IoWrapper.flush (w : IoWrapper) : IoWrapper :=
  { w with inner := { w.inner with flushes := w.inner.flushes + 1 } }

/- IoWrapper::shutdown (h2.rs lines 342-344): always delegates. -/
def IoWrapper.shutdown (w : IoWrapper) : IoWrapper :=
  { w with inner := { w.inner with shutdowns := w.inner.shutdowns + 1 } }

/- The byte sequence still observable through the wrapper: the unread
prefix (if any) followed by the inner transport bytes. -/
def streamOf (w : IoWrapper) : List Nat :=
  (w.unread.getD []) ++ w.inner.toRead

/- Sample entry used to evaluate the payload routine at concrete inputs. -/
def entryA : Entry :=
  { task := Dispatched.notFound, fed := [], sinkErrs := [], grants := [],
    pending := [], notified := false, resets := 0, eof := false,
    error := false, finished := false, reof := false, capacity := 5 }

/- Sample entry whose receiver currently offers two chunks. -/
def entryB : Entry :=
  { task := Dispatched.notFound, fed := [], sinkErrs := [], grants := [],
    pending := [RecvItem.chunk [1], RecvItem.chunk [2]], notified := false,
    resets := 0, eof := false, error := false, finished := false,
    reof := false, capacity := 0 }

def hA : Handler := { pfx := ['/', 'a', 'p', 'i'], hid := 1 }

def hRoot : Handler := { pfx := ['/'], hid := 2 }

def routerAB : List Handler := [hA, hRoot]

def path1 : List Char := ['/', 'i', 'n', 'd', 'e', 'x']

def io0 : InnerIo := { toRead := [7, 8], written := [], flushes := 0, shutdowns := 0 }

def w9 : IoWrapper := { unread := some [1, 2, 3], inner := io0 }

def wNone : IoWrapper := { unread := none, inner := io0 }

def entryC : Entry :=
  { task := Dispatched.notFound, fed := [], sinkErrs := [], grants := [],
    pending := [RecvItem.chunk [3]], notified := false, resets := 0,
    eof := false, error := false, finished := false, reof := true,
    capacity := 0 }

def entryD : Entry :=
  { task := Dispatched.notFound, fed := [], sinkErrs := [], grants := [],
    pending := [RecvItem.fault 42], notified := false, resets := 0,
    eof := false, error := false, finished := false, reof := false,
    capacity := 0 }

def entryE : Entry :=
  { task := Dispatched.notFound, fed := [], sinkErrs := [], grants := [],
    pending := [], notified := false, resets := 0, eof := true,
    error := false, finished := false, reof := true, capacity := 0 }

def eDone : Entry :=
  { task := Dispatched.notFound, fed := [], sinkErrs := [], grants := [],
    pending := [], notified := false, resets := 0, eof := true,
    error := false, finished := true, reof := true, capacity := 0 }

def eOpen : Entry :=
  { task := Dispatched.notFound, fed := [], sinkErrs := [], grants := [],
    pending := [], notified := false, resets := 0, eof := false,
    error := false, finished := false, reof := false, capacity := 0 }

def tsSample : List Entry := [eDone, eOpen, eDone]

def inputQuiet : EntryInput :=
  { cap := 0, grantErr := none, iop := IoPoll.notReady, tkp := TaskPoll.notReady }

def st0 : Http2State :=
  { router := [], disconnected := false, tasks := [], keepaliveTimer := false }

def stD : Http2State :=
  { router := [], disconnected := true, tasks := [eDone], keepaliveTimer := false }

def stT : Http2State :=
  { router := routerAB, disconnected := false, tasks := [], keepaliveTimer := true }

def iter0 : IterInput := { eins := fun _ => inputQuiet, engine := ServerPoll.notReady }

def iterS : IterInput :=
  { eins := fun _ => inputQuiet, engine := ServerPoll.stream path1 [] }

lemma drainStep_fields (e : Entry) :
    e.drainStep.capacity = e.capacity ∧ e.drainStep.grants = e.grants ∧
    e.drainStep.error = e.error ∧ e.drainStep.eof = e.eof ∧
    e.drainStep.finished = e.finished ∧ e.drainStep.resets = e.resets := by
  unfold Entry.drainStep
  split <;> simp

lemma grantStep_fields (e : Entry) (cap : Nat) (gerr : Option Nat) :
    (e.grantStep cap gerr).fed = e.fed ∧ (e.grantStep cap gerr).pending = e.pending ∧
    (e.grantStep cap gerr).error = e.error ∧ (e.grantStep cap gerr).eof = e.eof ∧
    (e.grantStep cap gerr).finished = e.finished ∧
    (e.grantStep cap gerr).resets = e.resets := by
  unfold Entry.grantStep
  cases gerr <;> split <;> simp

lemma grantStep_sinkErrs_none (e : Entry) (cap : Nat) :
    (e.grantStep cap none).sinkErrs = e.sinkErrs := by
  unfold Entry.grantStep
  split <;> simp

lemma grantStep_ne (e : Entry) (cap : Nat) (gerr : Option Nat) (h : e.capacity ≠ cap) :
    (e.grantStep cap gerr).grants = e.grants ++ [cap] ∧
    (e.grantStep cap gerr).capacity = cap := by
  unfold Entry.grantStep
  cases gerr <;> simp [h]

lemma grantStep_eq (e : Entry) (cap : Nat) (gerr : Option Nat) (h : e.capacity = cap) :
    e.grantStep cap gerr = e := by
  unfold Entry.grantStep
  simp [h]

lemma dispatch_no_match (router : List Handler) (path : List Char)
    (h : ∀ g, g ∈ router → g.pfx.isPrefixOf path = false) :
    dispatch router path = Dispatched.notFound := by
  induction router with
  | nil => rfl
  | cons hd tl ih =>
      unfold dispatch
      rw [h hd (List.mem_cons_self hd tl)]
      simp only [Bool.false_eq_true, if_false]
      exact ih fun g hg => h g (List.mem_cons_of_mem hd hg)

lemma dispatch_first_match (router : List Handler) (path : List Char) :
    ∀ i h, router.get? i = some h → h.pfx.isPrefixOf path = true →
      (∀ j g, j < i → router.get? j = some g → g.pfx.isPrefixOf path = false) →
      dispatch router path = Dispatched.handler h.hid := by
  induction router with
  | nil => intro i h hi; simp at hi
  | cons hd tl ih =>
      intro i h hi hm hprev
      cases i with
      | zero =>
          simp only [List.get?] at hi
          cases hi
          unfold dispatch
          rw [hm]
          rfl
      | succ n =>
          have h0 : hd.pfx.isPrefixOf path = false :=
            hprev 0 hd (Nat.succ_pos n) rfl
          unfold dispatch
          rw [h0]
          simp only [Bool.false_eq_true, if_false]
          exact ih n h hi hm fun j g hj hg =>
            hprev (j + 1) g (Nat.succ_lt_succ hj) hg

lemma dispatch_handler_mem (router : List Handler) (path : List Char) :
    ∀ hid, dispatch router path = Dispatched.handler hid →
      ∃ h, h ∈ router ∧ h.hid = hid ∧ h.pfx.isPrefixOf path = true := by
  induction router with
  | nil => intro hid h; simp [dispatch] at h
  | cons hd tl ih =>
      intro hid hdisp
      unfold dispatch at hdisp
      by_cases hm : hd.pfx.isPrefixOf path = true
      · rw [hm] at hdisp
        simp only [if_true] at hdisp
        cases hdisp
        exact ⟨hd, List.mem_cons_self hd tl, rfl, hm⟩
      · rw [Bool.not_eq_true] at hm
        rw [hm] at hdisp
        simp only [Bool.false_eq_true, if_false] at hdisp
        obtain ⟨g, hg, hgid, hgm⟩ := ih hid hdisp
        exact ⟨g, List.mem_cons_of_mem hd hg, hgid, hgm⟩

lemma entriesPhase_length (es : List Entry) (ins : Nat → EntryInput) :
    (entriesPhase es ins).1.length = es.length := by
  induction es generalizing ins with
  | nil => rfl
  | cons e tl ih => simp [entriesPhase, ih]

lemma entriesPhase_get? (es : List Entry) (ins : Nat → EntryInput) (j : Nat) :
    (entriesPhase es ins).1.get? j =
      (es.get? j).map fun x => (entryPass x (ins j)).1 := by
  induction es generalizing ins j with
  | nil => simp [entriesPhase]
  | cons e tl ih =>
      cases j with
      | zero => simp [entriesPhase]
      | succ n => simpa [entriesPhase] using ih (fun m => ins (m + 1)) n

lemma cleanup_eq_dropWhile (ts : List Entry) :
    cleanup ts = ts.dropWhile donePred := by
  induction ts with
  | nil => rfl
  | cons e tl ih =>
      unfold cleanup
      rw [List.dropWhile_cons]
      by_cases h : (e.eof && e.finished) || e.error
      · simp only [h, if_true, donePred, ih]
      · simp only [h, if_false, donePred]
        rw [Bool.not_eq_true] at h
        simp [h]

lemma cleanup_length_le (ts : List Entry) : (cleanup ts).length ≤ ts.length := by
  induction ts with
  | nil => exact Nat.le_refl 0
  | cons e tl ih =>
      unfold cleanup
      by_cases h : (e.eof && e.finished) || e.error
      · simp only [h, if_true]
        exact Nat.le_succ_of_le ih
      · simp [h]

lemma cleanup_head_not_done (ts : List Entry) :
    ∀ e rest, cleanup ts = e :: rest → donePred e = false := by
  induction ts with
  | nil => intro e rest h; simp [cleanup] at h
  | cons hd tl ih =>
      intro e rest h
      unfold cleanup at h
      by_cases hc : (hd.eof && hd.finished) || hd.error
      · rw [if_pos hc] at h
        exact ih e rest h
      · rw [if_neg hc] at h
        cases h
        rw [Bool.not_eq_true] at hc
        simpa [donePred] using hc

lemma cleanup_mem_of_open (ts : List Entry) :
    ∀ i j e f, i ≤ j → ts.get? i = some e → donePred e = false →
      ts.get? j = some f → f ∈ cleanup ts := by
  induction ts with
  | nil => intro i j e f _ hi; simp at hi
  | cons hd tl ih =>
      intro i j e f hij hi he hj
      cases i with
      | zero =>
          simp only [List.get?] at hi
          injection hi with heq
          subst heq
          have hcl : cleanup (hd :: tl) = hd :: tl := by
            unfold cleanup
            rw [if_neg]
            simpa [donePred] using he
          rw [hcl]
          exact List.get?_mem hj
      | succ n =>
          cases j with
          | zero => exact absurd hij (by omega)
          | succ m =>
              unfold cleanup
              by_cases hc : (hd.eof && hd.finished) || hd.error
              · rw [if_pos hc]
                exact ih n m e f (Nat.le_of_succ_le_succ hij) hi he hj
              · rw [if_neg hc]
                exact List.get?_mem hj

lemma innerIter_notReady_disconnected (st : Http2State) (inp : IterInput)
    (h : inp.engine = ServerPoll.notReady) :
    ((innerIter st inp).1).disconnected = st.disconnected := by
  unfold innerIter
  by_cases hd : st.disconnected
  · simp [hd]
  · simp only [hd, Bool.false_eq_true, if_false, h]
    split <;> rfl

/-- Claim C1: an Exchange Entry is removed only from the head of the entry
collection when it satisfies (eof && finished) || error; the cleanup loop
removes exactly the contiguous prefix of entries satisfying that predicate
(it is List.dropWhile of the completion predicate), the removed prefix all
satisfied the predicate, the first surviving entry does not, an entry
preceded by a still-open older entry stays resident, and every resident
entry is polled (entryPass applied) on every pass. -/
theorem c1_fifo_prune (ts : List Entry) :
    cleanup ts = ts.dropWhile donePred ∧
    (ts = ts.takeWhile donePred ++ cleanup ts ∧
      ∀ e, e ∈ ts.takeWhile donePred → donePred e = true) ∧
    (∀ e rest, cleanup ts = e :: rest → donePred e = false) ∧
    (∀ i j e f, i ≤ j → ts.get? i = some e → donePred e = false →
      ts.get? j = some f → f ∈ cleanup ts) ∧
    (∀ ins j, (entriesPhase ts ins).1.get? j =
      (ts.get? j).map fun x => (entryPass x (ins j)).1) := by
  refine ⟨cleanup_eq_dropWhile ts, ⟨?_, ?_⟩, cleanup_head_not_done ts,
    cleanup_mem_of_open ts, fun ins j => entriesPhase_get? ts ins j⟩
  · rw [cleanup_eq_dropWhile]
    exact (List.takeWhile_append_dropWhile donePred ts).symm
  · intro e he
    exact List.mem_takeWhile_imp he

/-- Witness for C1: in a three-entry queue whose middle entry is still open,
the completed last entry survives pruning and only the completed head is
removed. -/
theorem c1_fifo_prune_witness :
    donePred eOpen = false ∧ donePred eDone = true ∧
    eDone ∈ cleanup tsSample ∧ cleanup tsSample = [eOpen, eDone] := by
  refine ⟨by decide, by decide, ?_, by decide⟩
  exact (c1_fifo_prune tsSample).2.2.2.1 1 2 eOpen eDone (by omega)
    (by decide) (by decide) (by decide)

/-- Counterexample for C2: with a stored capacity of 5 and a newly
advertised capacity of 8, the code releases 8 (the full new value), not the
delta 3 claimed by the specification. -/
theorem c2_counterexample :
    entryA.reof = false ∧ entryA.capacity = 5 ∧ entryA.capacity ≠ 8 ∧
    (entryA.poll_payload 8 none).grants = entryA.grants ++ [8] ∧
    (entryA.poll_payload 8 none).grants ≠ entryA.grants ++ [8 - entryA.capacity] := by
  decide

/-- Claim C2 (amended): in each poll_payload invocation, after draining, if
the advertised capacity differs from the stored value then exactly one
capacity grant is issued and its amount equals the newly advertised
capacity value (not the delta), the stored value being updated to it; if
the capacity is unchanged no grant is issued; once reof is set the routine
does nothing. -/
theorem c2_capacity_grant (e : Entry) (cap : Nat) (gerr : Option Nat) :
    (e.reof = false → e.capacity ≠ cap →
      (e.poll_payload cap gerr).grants = e.grants ++ [cap] ∧
      (e.poll_payload cap gerr).capacity = cap) ∧
    (e.reof = false → e.capacity = cap →
      (e.poll_payload cap gerr).grants = e.grants ∧
      (e.poll_payload cap gerr).capacity = e.capacity) ∧
    (e.reof = true → e.poll_payload cap gerr = e) := by
  have hd := drainStep_fields e
  refine ⟨?_, ?_, ?_⟩
  · intro hr hc
    unfold Entry.poll_payload
    simp only [hr, Bool.false_eq_true, if_false]
    have hg := grantStep_ne e.drainStep cap gerr (by rw [hd.1]; exact hc)
    rw [hg.1, hg.2, hd.2.1]
    exact ⟨rfl, rfl⟩
  · intro hr hc
    unfold Entry.poll_payload
    simp only [hr, Bool.false_eq_true, if_false]
    have hg := grantStep_eq e.drainStep cap gerr (by rw [hd.1]; exact hc)
    rw [hg, hd.2.1, hd.1]
    exact ⟨rfl, rfl⟩
  · intro hr
    unfold Entry.poll_payload
    simp [hr]

/-- Witness for C2: a changed capacity issues one grant of the new value, an
unchanged capacity issues none, and a receiver at reof is untouched. -/
theorem c2_capacity_grant_witness :
    ((entryA.poll_payload 9 none).grants = entryA.grants ++ [9] ∧
      (entryA.poll_payload 9 none).capacity = 9) ∧
    ((entryB.poll_payload 0 none).grants = entryB.grants ∧
      (entryB.poll_payload 0 none).capacity = entryB.capacity) ∧
    entryC.poll_payload 7 none = entryC :=
  ⟨(c2_capacity_grant entryA 9 none).1 (by decide) (by decide),
   (c2_capacity_grant entryB 0 none).2.1 (by decide) (by decide),
   (c2_capacity_grant entryC 7 none).2.2 (by decide)⟩

/-- Counterexample for C3: with two chunks currently offered by the
receiver, a single poll_payload invocation feeds only the first chunk and
leaves the second pending, so it does not drain every currently offered
chunk as claimed. -/
theorem c3_counterexample :
    entryB.reof = false ∧
    entryB.pending = [RecvItem.chunk [1], RecvItem.chunk [2]] ∧
    (entryB.poll_payload 0 none).fed = entryB.fed ++ [[1]] ∧
    (entryB.poll_payload 0 none).pending = [RecvItem.chunk [2]] ∧
    (entryB.poll_payload 0 none).fed ≠ entryB.fed ++ [[1], [2]] := by
  decide

/-- Claim C3 (amended): each poll_payload invocation polls the receiver at
most once, feeding at most one chunk to the Payload Sink (in receive
order); a receiver fault is recorded into the sink as a body error without
touching the entry completion flags or issuing a reset, and is never
escalated to the connection (an engine nothing-yet iteration leaves the
disconnected flag unchanged whatever the entries do). -/
theorem c3_single_receiver_poll (e : Entry) (cap : Nat) (gerr : Option Nat) :
    ((e.poll_payload cap gerr).fed = e.fed ∨
      ∃ c rest, e.pending = RecvItem.chunk c :: rest ∧
        (e.poll_payload cap gerr).fed = e.fed ++ [c] ∧
        (e.poll_payload cap gerr).pending = rest) ∧
    (∀ code rest, e.reof = false → gerr = none →
        e.pending = RecvItem.fault code :: rest →
        (e.poll_payload cap gerr).sinkErrs = e.sinkErrs ++ [code] ∧
        (e.poll_payload cap gerr).pending = rest) ∧
    ((e.poll_payload cap gerr).error = e.error ∧
      (e.poll_payload cap gerr).eof = e.eof ∧
      (e.poll_payload cap gerr).finished = e.finished ∧
      (e.poll_payload cap gerr).resets = e.resets) ∧
    (∀ st inp, inp.engine = ServerPoll.notReady →
        ((innerIter st inp).1).disconnected = st.disconnected) := by
  have hgf := grantStep_fields e.drainStep cap gerr
  refine ⟨?_, ?_, ?_, fun st inp h => innerIter_notReady_disconnected st inp h⟩
  · by_cases hr : e.reof
    · left
      simp [Entry.poll_payload, hr]
    · rcases hp : e.pending with _ | ⟨item, rest⟩
      · left
        unfold Entry.poll_payload
        simp only [hr, Bool.false_eq_true, if_false]
        rw [hgf.1]
        simp [Entry.drainStep, hp]
      · cases item with
        | chunk c =>
            right
            refine ⟨c, rest, rfl, ?_, ?_⟩
            · unfold Entry.poll_payload
              simp only [hr, Bool.false_eq_true, if_false]
              rw [hgf.1]
              simp [Entry.drainStep, hp]
            · unfold Entry.poll_payload
              simp only [hr, Bool.false_eq_true, if_false]
              rw [hgf.2.1]
              simp [Entry.drainStep, hp]
        | eofItem =>
            left
            unfold Entry.poll_payload
            simp only [hr, Bool.false_eq_true, if_false]
            rw [hgf.1]
            simp [Entry.drainStep, hp]
        | fault code =>
            left
            unfold Entry.poll_payload
            simp only [hr, Bool.false_eq_true, if_false]
            rw [hgf.1]
            simp [Entry.drainStep, hp]
  · intro code rest hr hg hp
    subst hg
    unfold Entry.poll_payload
    simp only [hr, Bool.false_eq_true, if_false]
    rw [grantStep_sinkErrs_none, (grantStep_fields e.drainStep cap none).2.1]
    constructor
    · simp [Entry.drainStep, hp]
    · simp [Entry.drainStep, hp]
  · by_cases hr : e.reof
    · simp [Entry.poll_payload, hr]
    · have hdf := drainStep_fields e
      unfold Entry.poll_payload
      simp only [hr, Bool.false_eq_true, if_false]
      rw [hgf.2.2.1, hgf.2.2.2.1, hgf.2.2.2.2.1, hgf.2.2.2.2.2]
      exact ⟨hdf.2.2.1, hdf.2.2.2.1, hdf.2.2.2.2.1, hdf.2.2.2.2.2⟩

/-- Witness for C3: a receiver fault is recorded as a sink error, and an
engine nothing-yet iteration preserves the disconnected flag. -/
theorem c3_single_receiver_poll_witness :
    ((entryD.poll_payload 0 none).sinkErrs = entryD.sinkErrs ++ [42] ∧
      (entryD.poll_payload 0 none).pending = []) ∧
    ((innerIter st0 iter0).1).disconnected = st0.disconnected :=
  ⟨(c3_single_receiver_poll entryD 0 none).2.1 42 [] (by decide) rfl (by decide),
   (c3_single_receiver_poll entryD 0 none).2.2.2 st0 iter0 rfl⟩

/-- Claim C4: entry construction dispatches to the task produced by the
dispatch loop; when no registered prefix matches the path the result is the
not-found task; when position i matches and every earlier position does
not, the result is exactly handler i; and any dispatched handler id belongs
to a registered handler whose prefix matches. -/
theorem c4_first_match_dispatch (router : List Handler) (path : List Char)
    (body : List RecvItem) :
    (Entry.new router path body).task = dispatch router path ∧
    ((∀ g, g ∈ router → g.pfx.isPrefixOf path = false) →
        dispatch router path = Dispatched.notFound) ∧
    (∀ i h, router.get? i = some h → h.pfx.isPrefixOf path = true →
        (∀ j g, j < i → router.get? j = some g → g.pfx.isPrefixOf path = false) →
        dispatch router path = Dispatched.handler h.hid) ∧
    (∀ hid, dispatch router path = Dispatched.handler hid →
        ∃ h, h ∈ router ∧ h.hid = hid ∧ h.pfx.isPrefixOf path = true) :=
  ⟨rfl, dispatch_no_match router path, dispatch_first_match router path,
   dispatch_handler_mem router path⟩

/-- Witness for C4: with handlers /api then /, the path /index skips /api
and is dispatched to the / handler; with only /api registered it falls back
to not-found. -/
theorem c4_first_match_dispatch_witness :
    dispatch routerAB path1 = Dispatched.handler 2 ∧
    dispatch [hA] path1 = Dispatched.notFound :=
  ⟨(c4_first_match_dispatch routerAB path1 []).2.2.1 1 hRoot (by decide) (by decide)
      (fun j g hj hg => by
        cases j with
        | zero =>
            have hg2 : g = hA := by simpa [routerAB] using hg.symm
            rw [hg2]
            decide
        | succ n => exact absurd hj (by omega)),
   (c4_first_match_dispatch [hA] path1 []).2.1
      (fun g hg => by
        have hg2 : g = hA := by simpa using hg
        rw [hg2]
        decide)⟩

/-- Claim C5: once the disconnected flag is set, an iteration is exactly
poll-entries-then-prune (the engine is never polled and no entry is
appended), its result does not depend on the engine input, the flag stays
set and the entry count never grows, across a whole inner loop as well. -/
theorem c5_no_entries_after_disconnect :
    (∀ st inp, st.disconnected = true →
      innerIter st inp =
        ({ st with tasks := cleanup (entriesPhase st.tasks inp.eins).1 },
          (entriesPhase st.tasks inp.eins).2)) ∧
    (∀ st ein eg1 eg2, st.disconnected = true →
      innerIter st { eins := ein, engine := eg1 } =
        innerIter st { eins := ein, engine := eg2 }) ∧
    (∀ st inp, st.disconnected = true →
      ((innerIter st inp).1).disconnected = true ∧
      ((innerIter st inp).1).tasks.length ≤ st.tasks.length) ∧
    (∀ st iters stf b, st.disconnected = true →
      serveLoop st iters = some (stf, b) →
      stf.disconnected = true ∧ stf.tasks.length ≤ st.tasks.length) := by
  have hone : ∀ st inp, st.disconnected = true →
      innerIter st inp =
        ({ st with tasks := cleanup (entriesPhase st.tasks inp.eins).1 },
          (entriesPhase st.tasks inp.eins).2) := by
    intro st inp h
    simp [innerIter, h]
  have hlen : ∀ st inp, st.disconnected = true →
      ((innerIter st inp).1).disconnected = true ∧
      ((innerIter st inp).1).tasks.length ≤ st.tasks.length := by
    intro st inp h
    rw [hone st inp h]
    refine ⟨h, ?_⟩
    calc (cleanup (entriesPhase st.tasks inp.eins).1).length
        ≤ (entriesPhase st.tasks inp.eins).1.length :=
          cleanup_length_le (entriesPhase st.tasks inp.eins).1
      _ = st.tasks.length := entriesPhase_length st.tasks inp.eins
  refine ⟨hone, ?_, hlen, ?_⟩
  · intro st ein eg1 eg2 h
    rw [hone st { eins := ein, engine := eg1 } h,
        hone st { eins := ein, engine := eg2 } h]
  · intro st iters
    induction iters generalizing st with
    | nil => intro stf b _ hs; simp [serveLoop] at hs
    | cons i rest ih =>
        intro stf b h hs
        unfold serveLoop at hs
        by_cases hp : (innerIter st i).2
        · rw [if_pos hp] at hs
          have h1 := hlen st i h
          have h2 := ih (innerIter st i).1 stf b h1.1 hs
          exact ⟨h2.1, Nat.le_trans h2.2 h1.2⟩
        · rw [if_neg hp] at hs
          injection hs with hs2
          injection hs2 with hsf hsb
          subst hsf
          exact hlen st i h

/-- Witness for C5: a disconnected state with one completed entry stays
disconnected, never grows its queue, and drains to done. -/
theorem c5_no_entries_after_disconnect_witness :
    ((innerIter stD iter0).1).disconnected = true ∧
    ((innerIter stD iter0).1).tasks.length ≤ stD.tasks.length ∧
    ({ stD with tasks := [] } : Http2State).disconnected = true := by
  have h1 := c5_no_entries_after_disconnect.2.2.1 stD iter0 rfl
  have hs : serveLoop stD [iter0] = some ({ stD with tasks := [] }, true) := rfl
  have h2 := c5_no_entries_after_disconnect.2.2.2 stD [iter0]
      { stD with tasks := [] } true rfl hs
  exact ⟨h1.1, h1.2, h2.1⟩

/-- Claim C6: in the Serving state, a fired existing idle timer makes the
advance operation report done immediately; without a fired timer it runs
the inner loop; and an iteration that makes no progress ends the loop with
done exactly when the entry collection is empty and the peer is
disconnected, pending otherwise. -/
theorem c6_advance_return :
    (∀ st iters, st.keepaliveTimer = true →
      servePoll st true iters = some (st, true)) ∧
    (∀ st tf iters, (st.keepaliveTimer && tf) = false →
      servePoll st tf iters = serveLoop st iters) ∧
    (∀ st i rest, (innerIter st i).2 = false →
      serveLoop st (i :: rest) =
        some ((innerIter st i).1,
          (innerIter st i).1.tasks.isEmpty && (innerIter st i).1.disconnected)) := by
  refine ⟨?_, ?_, ?_⟩
  · intro st iters h
    simp [servePoll, h]
  · intro st tf iters h
    simp [servePoll, h]
  · intro st i rest h
    simp [serveLoop, h]

/-- Witness for C6: a fired timer reports done at once, and a no-progress
iteration returns the empty-and-disconnected verdict. -/
theorem c6_advance_return_witness :
    servePoll stT true [] = some (stT, true) ∧
    serveLoop st0 [iter0] =
      some ((innerIter st0 iter0).1,
        (innerIter st0 iter0).1.tasks.isEmpty &&
          (innerIter st0 iter0).1.disconnected) :=
  ⟨c6_advance_return.1 stT [] rfl, c6_advance_return.2.2 st0 iter0 [] rfl⟩

/-- Claim C7: the idle timer becomes armed in an iteration only when the
engine reported nothing-yet with the pruned entry collection empty, no
timer existing, and the peer not disconnected; conversely under exactly
those conditions it is armed; and the arrival of a new stream clears the
timer in that same iteration. -/
theorem c7_idle_timer :
    (∀ st inp, st.keepaliveTimer = false →
      ((innerIter st inp).1).keepaliveTimer = true →
      st.disconnected = false ∧ inp.engine = ServerPoll.notReady ∧
      cleanup (entriesPhase st.tasks inp.eins).1 = []) ∧
    (∀ st inp, st.disconnected = false → inp.engine = ServerPoll.notReady →
      st.keepaliveTimer = false →
      cleanup (entriesPhase st.tasks inp.eins).1 = [] →
      ((innerIter st inp).1).keepaliveTimer = true) ∧
    (∀ st inp path body, st.disconnected = false →
      inp.engine = ServerPoll.stream path body →
      ((innerIter st inp).1).keepaliveTimer = false) := by
  refine ⟨?_, ?_, ?_⟩
  · intro st inp hk ht
    unfold innerIter at ht
    by_cases hd : st.disconnected
    · rw [if_pos hd] at ht
      rw [hk] at ht
      exact absurd ht (by simp)
    · rw [if_neg hd] at ht
      rw [Bool.not_eq_true] at hd
      rcases heng : inp.engine with _ | ⟨p, b⟩ | _ | _ <;> rw [heng] at ht
      · rw [hk] at ht
        exact absurd ht (by simp)
      · exact absurd ht (by simp)
      · by_cases hc : (cleanup (entriesPhase st.tasks inp.eins).1).isEmpty
            && !st.keepaliveTimer
        · rw [if_pos hc] at ht
          have hemp := (Bool.and_eq_true _ _).mp hc
          refine ⟨hd, rfl, ?_⟩
          simpa using hemp.1
        · rw [if_neg hc] at ht
          rw [hk] at ht
          exact absurd ht (by simp)
      · exact absurd ht (by simp)
  · intro st inp hd heng hk hcl
    unfold innerIter
    rw [if_neg (by rw [hd]; simp), heng]
    rw [if_pos (by rw [hcl, hk]; rfl)]
  · intro st inp path body hd heng
    unfold innerIter
    rw [if_neg (by rw [hd]; simp), heng]

/-- Witness for C7: an idle empty connection arms the timer, and a new
stream arriving while the timer exists clears it. -/
theorem c7_idle_timer_witness :
    ((innerIter st0 iter0).1).keepaliveTimer = true ∧
    ((innerIter stT iterS).1).keepaliveTimer = false :=
  ⟨c7_idle_timer.2.1 st0 iter0 rfl rfl rfl rfl,
   c7_idle_timer.2.2 stT iterS path1 [] rfl rfl⟩

/-- Claim C8: a task poll_io failure on a non-eof entry sets exactly eof and
error and issues one reset on that entry writer, leaving every other field
unchanged; a task completion-poll failure on an eof, unfinished entry sets
exactly error and finished with no reset; each entry position is updated
independently of the others; and entry failures never change the
connection disconnected flag. -/
theorem c8_task_failure_flags :
    (∀ e tkp, e.eof = false →
      taskStep e IoPoll.err tkp =
        ({ e with eof := true, error := true, resets := e.resets + 1 }, false)) ∧
    (∀ e iop, e.eof = true → e.finished = false →
      taskStep e iop TaskPoll.err =
        ({ e with error := true, finished := true }, false)) ∧
    (∀ es ins j, (entriesPhase es ins).1.get? j =
      (es.get? j).map fun x => (entryPass x (ins j)).1) ∧
    (∀ st inp, inp.engine = ServerPoll.notReady →
      ((innerIter st inp).1).disconnected = st.disconnected) := by
  refine ⟨?_, ?_, fun es ins j => entriesPhase_get? es ins j,
    fun st inp h => innerIter_notReady_disconnected st inp h⟩
  · intro e tkp h
    simp [taskStep, h]
  · intro e iop h hf
    simp [taskStep, h, hf]

/-- Witness for C8: the two failure shapes evaluated on concrete entries. -/
theorem c8_task_failure_flags_witness :
    taskStep eOpen IoPoll.err TaskPoll.notReady =
      ({ eOpen with eof := true, error := true, resets := eOpen.resets + 1 },
        false) ∧
    taskStep entryE IoPoll.notReady TaskPoll.err =
      ({ entryE with error := true, finished := true }, false) :=
  ⟨c8_task_failure_flags.1 eOpen TaskPoll.notReady (by decide),
   c8_task_failure_flags.2.1 entryE IoPoll.notReady (by decide) (by decide)⟩

/-- Claim C9: while a non-empty buffered prefix remains, a read returns
min(buffer length, prefix length) bytes from the front of the prefix,
retains the uncopied remainder and never touches the inner transport; with
no prefix a read delegates to the inner transport; write, flush and
shutdown always delegate; and every read preserves the concatenated byte
stream (prefix then transport) with no loss. -/
theorem c9_transport_adapter (w : IoWrapper) (bufLen : Nat) :
    (∀ bytes, w.unread = some bytes → bytes ≠ [] →
      (w.read bufLen).1 = bytes.take (min bufLen bytes.length) ∧
      (w.read bufLen).1.length = min bufLen bytes.length ∧
      (w.read bufLen).2.inner = w.inner ∧
      (w.read bufLen).2.unread =
        (if min bufLen bytes.length < bytes.length
         then some (bytes.drop (min bufLen bytes.length)) else none)) ∧
    (w.unread = none →
      (w.read bufLen).1 = w.inner.toRead.take bufLen ∧
      (w.read bufLen).2.unread = none ∧
      (w.read bufLen).2.inner.toRead = w.inner.toRead.drop bufLen) ∧
    (∀ buf, (w.write buf).inner.written = w.inner.written ++ [buf] ∧
      (w.write buf).unread = w.unread ∧
      (w.write buf).inner.toRead = w.inner.toRead) ∧
    (w.flush.inner.flushes = w.inner.flushes + 1 ∧ w.flush.unread = w.unread) ∧
    (w.shutdown.inner.shutdowns = w.inner.shutdowns + 1 ∧
      w.shutdown.unread = w.unread) ∧
    (w.read bufLen).1 ++ streamOf (w.read bufLen).2 = streamOf w := by
  refine ⟨?_, ?_, ?_, ⟨rfl, rfl⟩, ⟨rfl, rfl⟩, ?_⟩
  · intro bytes hu hne
    unfold IoWrapper.read
    rw [hu]
    by_cases hlt : min bufLen bytes.length < bytes.length
    · simp [hlt, List.length_take, Nat.min_assoc, Nat.min_self,
        Nat.min_eq_left (Nat.le_of_lt hlt)]
    · simp [hlt, List.length_take, Nat.min_eq_left (Nat.min_le_right bufLen bytes.length)]
  · intro hu
    unfold IoWrapper.read
    rw [hu]
    exact ⟨rfl, rfl, rfl⟩
  · intro buf
    exact ⟨rfl, rfl, rfl⟩
  · unfold IoWrapper.read streamOf
    cases hu : w.unread with
    | none => simp
    | some bytes =>
        by_cases hlt : min bufLen bytes.length < bytes.length
        · simp only [hlt, if_true, Option.getD_some]
          rw [← List.append_assoc, List.take_append_drop]
        · have hge : bytes.length ≤ min bufLen bytes.length := Nat.le_of_not_lt hlt
          have : min bufLen bytes.length = bytes.length :=
            Nat.le_antisymm (Nat.min_le_right bufLen bytes.length) hge
          simp [hlt, this]

/-- Witness for C9: a three-byte prefix read with a two-byte buffer yields
the first two bytes and keeps the third; with no prefix the read delegates;
a write delegates; the observed stream is preserved. -/
theorem c9_transport_adapter_witness :
    ((w9.read 2).1 = [1, 2] ∧ (w9.read 2).1.length = 2 ∧
      (w9.read 2).2.inner = w9.inner ∧ (w9.read 2).2.unread = some [3]) ∧
    ((wNone.read 5).1 = [7, 8] ∧ (wNone.read 5).2.unread = none ∧
      (wNone.read 5).2.inner.toRead = []) ∧
    (w9.write [4]).inner.written = w9.inner.written ++ [[4]] ∧
    (w9.read 2).1 ++ streamOf (w9.read 2).2 = streamOf w9 := by
  have h1 := (c9_transport_adapter w9 2).1 [1, 2, 3] rfl (by decide)
  have h2 := (c9_transport_adapter wNone 5).2.1 rfl
  have h3 := ((c9_transport_adapter w9 2).2.2.1 [4]).1
  have h4 := (c9_transport_adapter w9 2).2.2.2.2.2
  refine ⟨?_, ?_, h3, h4⟩
  · obtain ⟨a, b, c, d⟩ := h1
    refine ⟨?_, ?_, c, ?_⟩
    · rw [a]; decide
    · rw [b]; decide
    · rw [d]; decide
  · obtain ⟨a, b, c⟩ := h2
    refine ⟨?_, b, ?_⟩
    · rw [a]; decide
    · rw [c]; decide

/-- Claim C10: a wrapper holding a present-but-empty buffered prefix
(Some of the empty sequence, as Http2::new installs) answers its first read
with zero bytes without consulting the inner transport, whatever the buffer
size and whatever the transport holds, and only subsequent reads delegate. -/
theorem c10_empty_buffered_prefix (w : IoWrapper) (bufLen : Nat)
    (h : w.unread = some []) :
    (w.read bufLen).1 = [] ∧
    (w.read bufLen).2.inner = w.inner ∧
    (w.read bufLen).2.unread = none ∧
    (∀ n, ((w.read bufLen).2.read n).1 = w.inner.toRead.take n ∧
      ((w.read bufLen).2.read n).2.inner.toRead = w.inner.toRead.drop n) := by
  simp [IoWrapper.read, h]

/-- Witness for C10: the wrapper built from an empty buffer over a transport
holding two bytes returns zero bytes first and the transport bytes next. -/
theorem c10_empty_buffered_prefix_witness :
    ((mkIoWrapper [] io0).read 4).1 = [] ∧
    ((mkIoWrapper [] io0).read 4).2.inner = io0 ∧
    ((mkIoWrapper [] io0).read 4).2.unread = none ∧
    (((mkIoWrapper [] io0).read 4).2.read 1).1 = [7] := by
  have h := c10_empty_buffered_prefix (mkIoWrapper [] io0) 4 rfl
  refine ⟨h.1, h.2.1, h.2.2.1, ?_⟩
  rw [(h.2.2.2 1).1]
  decide
